import Mathlib

/-!
Verification of the real-time K-line (candlestick) aggregation engine:
a shallow embedding of `src/storage/kline_period.py` (`KLinePeriod`,
`KLineBar`) and `src/storage/kline_builder.py` (`KLineBuilder`), together
with theorems settling the specification's claims about them.

Python floats are modelled by `ℚ` (the claims only use comparisons and
`max`/`min` on prices, which floats compute exactly on the values in
question), Python `datetime` by an explicit record of calendar fields,
and the storage engine (`kline_storage.store_kline`) by an explicit
trace of the bars handed to it, in call order.
-/

set_option autoImplicit false

namespace KLine

/-- Python `datetime`: proleptic-Gregorian calendar fields down to
milliseconds (the tick feed carries `UpdateMillisec`, so microseconds
beyond milliseconds never arise). -/
structure DateTime where
  year : Nat
  month : Nat
  day : Nat
  hour : Nat
  minute : Nat
  second : Nat
  millisec : Nat
deriving DecidableEq, Repr

/-- Day number of a proleptic-Gregorian civil date (standard
era/year-of-era computation; the epoch offset is irrelevant because the
builder only ever subtracts two datetimes). -/
def daysFromCivil (y m d : Nat) : Nat :=
  let y2 := if m ≤ 2 then y - 1 else y
  let era := y2 / 400
  let yoe := y2 - era * 400
  let mp := (m + 9) % 12
  let doy := (153 * mp + 2) / 5 + d - 1
  let doe := yoe * 365 + (yoe / 4 - yoe / 100) + doy
  era * 146097 + doe

/-- Millisecond timestamp of a `DateTime`; differences of `toMillis`
agree with Python `(dt1 - dt2).total_seconds() * 1000`. -/
def DateTime.toMillis (t : DateTime) : Nat :=
  (((daysFromCivil t.year t.month t.day * 24 + t.hour) * 60 + t.minute) * 60
      + t.second) * 1000 + t.millisec

/-- Python `(current_time - start_time).total_seconds() / 60`: the
millisecond difference divided by 1000 and then by 60. Written with the
exact integer-pair division `Rat.divInt` by 60000 so that the value is
kernel-computable; `elapsedMinutes_eq_div` below proves it equal to the
literal `/ 1000 / 60` expression. -/
def elapsedMinutes (st t : DateTime) : ℚ :=
  Rat.divInt ((t.toMillis : Int) - (st.toMillis : Int)) 60000

/-- `KLinePeriod` enumeration from `kline_period.py`, in source order. -/
inductive KLinePeriod where
  | min1
  | min3
  | min5
  | min10
  | min15
  | min30
  | min60
  | day1
deriving DecidableEq, Repr

namespace KLinePeriod

/-- `KLinePeriod.value`: the canonical string key of a period. -/
def value : KLinePeriod → String
  | min1 => "1m"
  | min3 => "3m"
  | min5 => "5m"
  | min10 => "10m"
  | min15 => "15m"
  | min30 => "30m"
  | min60 => "60m"
  | day1 => "1d"

/-- `KLinePeriod.minutes`: duration in minutes (1440 for the day line).
The Python dict lookup has a default of 1 that is never hit. -/
def minutes : KLinePeriod → Nat
  | min1 => 1
  | min3 => 3
  | min5 => 5
  | min10 => 10
  | min15 => 15
  | min30 => 30
  | min60 => 60
  | day1 => 1440

/-- `KLinePeriod.get_all_periods()`: all members in declaration order. -/
def getAllPeriods : List KLinePeriod :=
  [min1, min3, min5, min10, min15, min30, min60, day1]

/-- `KLinePeriod.from_string`: scan the members in declaration order for
one whose value equals the input; raise `ValueError` (modelled as
`Except.error` carrying the offending string) when none matches. -/
def fromString (s : String) : Except String KLinePeriod :=
  match getAllPeriods.find? (fun p => p.value == s) with
  | some p => Except.ok p
  | none => Except.error s

end KLinePeriod

/-- `KLineBar.__init__` field-for-field: a bar for one instrument and one
period, with times unset, empty trading day, zeroed OHLCV and counters.
(`open` is a Lean keyword, hence the field name `open_`.) -/
@[ext]
structure KLineBar where
  instrument_id : String
  period : KLinePeriod
  start_time : Option DateTime := none
  end_time : Option DateTime := none
  trading_day : String := ""
  open_ : ℚ := 0
  high : ℚ := 0
  low : ℚ := 0
  close : ℚ := 0
  volume : Int := 0
  turnover : ℚ := 0
  open_interest : ℚ := 0
  tick_count : Nat := 0
  is_finished : Bool := false
deriving DecidableEq, Repr

/-- The tick fields the aggregator consumes. `time` stands for the
`datetime` that `_parse_tick_time` builds out of `TradingDay`,
`UpdateTime` and `UpdateMillisec`; a missing `InstrumentID` is modelled
by the empty string (Python tests the field with `if not instrument_id`,
which treats `None` and `""` alike). -/
structure TickData where
  instrumentID : String := ""
  tradingDay : String := ""
  time : DateTime
  lastPrice : ℚ := 0
  volume : Int := 0
  turnover : ℚ := 0
  openInterest : ℚ := 0
deriving DecidableEq, Repr

/-- `KLineBar.update`, line for line: re-initialise OHLC when
`self.open == 0`, otherwise raise `high`, lower `low` (the low update is
guarded by `self.low > 0`), always overwrite `close` and the cumulative
trade fields, set `trading_day` only while it is empty, and bump
`tick_count`. -/
def KLineBar.update (bar : KLineBar) (tick : TickData) : KLineBar :=
  let price := tick.lastPrice
  let b1 :=
    if bar.open_ = 0 then
      { bar with open_ := price, high := price, low := price }
    else
      { bar with high := max bar.high price,
                 low := if bar.low > 0 then min bar.low price else price }
  let b2 := { b1 with close := price, volume := tick.volume,
                      turnover := tick.turnover,
                      open_interest := tick.openInterest }
  let b3 := if b2.trading_day = "" then { b2 with trading_day := tick.tradingDay }
            else b2
  { b3 with tick_count := b3.tick_count + 1 }

/-- Folding a list of ticks through `KLineBar.update`, in order. -/
def updates (bar : KLineBar) (ticks : List TickData) : KLineBar :=
  ticks.foldl KLineBar.update bar

/-- Lookup in an insertion-ordered association list — the model of a
Python `dict` (which preserves insertion order). -/
def lookupA {α β : Type} [DecidableEq α] : List (α × β) → α → Option β
  | [], _ => none
  | kv :: rest, k => if kv.1 = k then some kv.2 else lookupA rest k

/-- `d[k] = v` on an insertion-ordered association list: replace the
value in place when the key is present, append otherwise. -/
def setA {α β : Type} [DecidableEq α] : List (α × β) → α → β → List (α × β)
  | [], k, v => [(k, v)]
  | kv :: rest, k, v =>
      if kv.1 = k then (k, v) :: rest else kv :: setA rest k v

/-- Per-instrument table: period to current bar, insertion-ordered. -/
abbrev PeriodBars := List (KLinePeriod × KLineBar)

/-- `KLineBuilder` state: enabled periods (parsed at construction), the
`{instrument_id: {period: KLineBar}}` table, and the two counters. -/
structure KLineBuilder where
  enabled_periods : List KLinePeriod
  current_bars : List (String × PeriodBars) := []
  total_ticks : Nat := 0
  total_bars : Nat := 0
deriving DecidableEq, Repr

namespace KLineBuilder

/-- `KLineBuilder.__init__` with an explicit period list: Python treats
both `None` and `[]` as falsy and then enables every period; otherwise
each key is parsed with `from_string`, so one unknown key raises
(`Except.error`) and construction fails. -/
def initB (enabled_periods : List String) : Except String KLineBuilder :=
  if enabled_periods = [] then
    Except.ok { enabled_periods := KLinePeriod.getAllPeriods }
  else
    match enabled_periods.mapM KLinePeriod.fromString with
    | Except.ok ps => Except.ok { enabled_periods := ps }
    | Except.error e => Except.error e

/-- `KLineBuilder._align_time`: the day line snaps to 09:00:00.000 of
the same date; a minute line of duration `d` keeps the date and hour and
truncates the minute down to a multiple of `d`, zeroing seconds and
sub-seconds. -/
def alignTime (dt : DateTime) (period : KLinePeriod) : DateTime :=
  if period = KLinePeriod.day1 then
    { dt with hour := 9, minute := 0, second := 0, millisec := 0 }
  else
    let m := period.minutes
    { dt with minute := dt.minute / m * m, second := 0, millisec := 0 }

/-- `KLineBuilder._create_new_bar`: a fresh `KLineBar` whose
`start_time` is the aligned tick time. -/
def createNewBar (instrument_id : String) (period : KLinePeriod)
    (current_time : DateTime) : KLineBar :=
  { instrument_id := instrument_id, period := period,
    start_time := some (alignTime current_time period) }

/-- `KLineBuilder._should_finish_bar`: never for a bar without
`start_time`; for the day line, exactly when the day-of-month changed
and the hour is ≥ 15 (first branch) or ≥ 3 (second branch); for minute
lines, when the elapsed minutes since `start_time` reach the period
duration. -/
def shouldFinishBar (bar : KLineBar) (current_time : DateTime) : Bool :=
  match bar.start_time with
  | none => false
  | some st =>
    if bar.period = KLinePeriod.day1 then
      if 15 ≤ current_time.hour ∧ st.day ≠ current_time.day then true
      else if 3 ≤ current_time.hour ∧ st.day ≠ current_time.day then true
      else false
    else
      decide (elapsedMinutes st current_time ≥ (bar.period.minutes : ℚ))

/-- Finalising a bar: `is_finished = True`, `end_time = t`, as done both
on window rollover and in `close()`. -/
def finishBar (bar : KLineBar) (t : DateTime) : KLineBar :=
  { bar with is_finished := true, end_time := some t }

/-- `KLineBuilder._update_kline` on one instrument's period table:
create the bar if the period has none; if the current bar's window has
elapsed, finish it, hand it to the sink (the bar appears in the emitted
trace, second component), and start a fresh aligned bar; finally fold
the tick into whichever bar is now current. -/
def updateKline (bars : PeriodBars) (instrument_id : String)
    (period : KLinePeriod) (tick : TickData) (current_time : DateTime) :
    PeriodBars × List KLineBar :=
  let bars1 :=
    match lookupA bars period with
    | none => setA bars period (createNewBar instrument_id period current_time)
    | some _ => bars
  match lookupA bars1 period with
  | none => (bars1, [])
  | some current =>
    if shouldFinishBar current current_time then
      let fin := finishBar current current_time
      let newBar := createNewBar instrument_id period current_time
      (setA bars1 period (newBar.update tick), [fin])
    else
      (setA bars1 period (current.update tick), [])

/-- The `for period in self.enabled_periods` loop inside `on_tick`,
threading the instrument's table and concatenating the emitted bars in
call order. -/
def updatePeriods (instrument_id : String) (tick : TickData)
    (current_time : DateTime) :
    List KLinePeriod → PeriodBars → PeriodBars × List KLineBar
  | [], bars => (bars, [])
  | p :: ps, bars =>
      let r1 := updateKline bars instrument_id p tick current_time
      let r2 := updatePeriods instrument_id tick current_time ps r1.1
      (r2.1, r1.2 ++ r2.2)

/-- `KLineBuilder.on_tick`: drop the tick when `InstrumentID` is
missing; otherwise ensure the instrument's table exists, update every
enabled period, and count the tick. Returns the new state and the bars
stored during the call, in store order. (`_parse_tick_time` is modelled
as returning `tick.time`, the datetime carried by the tick.) -/
def onTick (b : KLineBuilder) (tick : TickData) :
    KLineBuilder × List KLineBar :=
  if tick.instrumentID = "" then (b, [])
  else
    let current_time := tick.time
    let instBars := (lookupA b.current_bars tick.instrumentID).getD []
    let r := updatePeriods tick.instrumentID tick current_time
        b.enabled_periods instBars
    ({ b with current_bars := setA b.current_bars tick.instrumentID r.1,
              total_ticks := b.total_ticks + 1,
              total_bars := b.total_bars + r.2.length }, r.2)

/-- Feeding a list of ticks through `on_tick`, concatenating the store
traces. -/
def feed (b : KLineBuilder) : List TickData → KLineBuilder × List KLineBar
  | [] => (b, [])
  | tk :: rest =>
      let r1 := onTick b tk
      let r2 := feed r1.1 rest
      (r2.1, r1.2 ++ r2.2)

/-- `KLineBuilder.get_current_bar`: `None` for an unknown instrument,
otherwise the period lookup in that instrument's table. -/
def getCurrentBar (b : KLineBuilder) (instrument_id : String)
    (period : KLinePeriod) : Option KLineBar :=
  match lookupA b.current_bars instrument_id with
  | none => none
  | some bars => lookupA bars period

/-- All bars held in the current-bar table, in iteration order of the
two nested dicts — the order `close()` visits them. -/
def allBars (b : KLineBuilder) : List KLineBar :=
  b.current_bars.flatMap (fun ib => ib.2.map Prod.snd)

/-- The flush loop of `KLineBuilder.close()` against a sink that may
fail. Bars with `tick_count > 0` are finished and passed to
`store_kline`; `sinkOk` tells whether that call returns or raises. The
loop body has no exception handler, so the first raising call aborts the
remaining iterations and the exception propagates (`false` in the second
component). The first component is the trace of store attempts. -/
def closeFlush (sinkOk : KLineBar → Bool) (now : DateTime) :
    List KLineBar → List KLineBar × Bool
  | [] => ([], true)
  | bar :: rest =>
    if 0 < bar.tick_count then
      let fin := finishBar bar now
      if sinkOk fin then
        let r := closeFlush sinkOk now rest
        (fin :: r.1, r.2)
      else ([fin], false)
    else closeFlush sinkOk now rest

/-- The store attempts made by `close()` (with `now` standing for
`datetime.now()`), and whether the whole flush ran without a sink
exception. -/
def closeStores (b : KLineBuilder) (sinkOk : KLineBar → Bool)
    (now : DateTime) : List KLineBar × Bool :=
  closeFlush sinkOk now b.allBars

/-- The builder state after a `close()` in which every sink call
succeeded: each bar with `tick_count > 0` has been finished in place
(the Python loop mutates the stored bar objects); the table itself is
not cleared. -/
def closeState (b : KLineBuilder) (now : DateTime) : KLineBuilder :=
  { b with current_bars := b.current_bars.map (fun ib =>
      (ib.1, ib.2.map (fun pb =>
        (pb.1, if 0 < pb.2.tick_count then finishBar pb.2 now else pb.2)))) }

end KLineBuilder

/-! Claim-side definitions: the spec's wording of `Bar.update` (to be
compared with the source's `KLineBar.update`), the invariants used in the
inductive proofs, and the concrete scenario inputs. -/

/-- The update operation exactly as the specification's sentences for
claim C5 word it: branch on `tick_count == 0` (not on `open == 0`), set
all four OHLC fields and the trading day on the first update, otherwise
`high = max`, `low = min` (unguarded), `close = price`; always overwrite
the cumulative fields and increment `tick_count`. Compared against the
source-derived `KLineBar.update`. -/
def updateSpec (bar : KLineBar) (tick : TickData) : KLineBar :=
  let price := tick.lastPrice
  let b1 :=
    if bar.tick_count = 0 then
      { bar with open_ := price, high := price, low := price, close := price,
                 trading_day := tick.tradingDay }
    else
      { bar with high := max bar.high price, low := min bar.low price,
                 close := price }
  { b1 with volume := tick.volume, turnover := tick.turnover,
            open_interest := tick.openInterest, tick_count := b1.tick_count + 1 }

/-- Folding ticks through `updateSpec`, mirroring `updates`. -/
def updatesSpec (bar : KLineBar) (ticks : List TickData) : KLineBar :=
  ticks.foldl updateSpec bar

/-- OHLC well-formedness invariant carried through `KLineBar.update` on
positive-price streams: either the bar is untouched (zero `tick_count`,
`open` and `low` still 0), or its OHLC fields are ordered with a
positive `low`. -/
def barPosInv (bar : KLineBar) : Prop :=
  (bar.tick_count = 0 ∧ bar.open_ = 0 ∧ bar.low = 0) ∨
  (0 < bar.low ∧ bar.low ≤ bar.open_ ∧ bar.open_ ≤ bar.high ∧
    bar.low ≤ bar.close ∧ bar.close ≤ bar.high)

/-- State invariant under which the source's `open == 0` test coincides
with the spec's `tick_count == 0` test: an untouched bar has zero `open`
and an empty trading day; a touched bar has positive `low` and `open`
and a nonempty trading day. -/
def barSyncInv (bar : KLineBar) : Prop :=
  (bar.tick_count = 0 → bar.open_ = 0 ∧ bar.trading_day = "") ∧
  (bar.tick_count ≠ 0 → 0 < bar.low ∧ 0 < bar.open_ ∧ bar.trading_day ≠ "")

/-- The eight canonical period keys, as listed by the spec. -/
def canonicalKeys : List String :=
  ["1m", "3m", "5m", "10m", "15m", "30m", "60m", "1d"]

/-- A tick for instrument `rb2505` on trading day `20251223` at the
given wall-clock time, with the given last price. -/
def rbTick (h m s : Nat) (price : ℚ) : TickData :=
  { instrumentID := "rb2505", tradingDay := "20251223",
    time := ⟨2025, 12, 23, h, m, s, 0⟩, lastPrice := price }

/-- A builder with only the 1-minute period enabled (the value
`KLineBuilder.initB ["1m"]` constructs). -/
def builder1m : KLineBuilder := { enabled_periods := [KLinePeriod.min1] }

/-- A builder with the 1-minute and 5-minute periods enabled. -/
def builder1m5m : KLineBuilder :=
  { enabled_periods := [KLinePeriod.min1, KLinePeriod.min5] }

/-- A daily bar started 2025-01-15 (aligned to 09:00). -/
def c2Bar : KLineBar :=
  { instrument_id := "rb2505", period := KLinePeriod.day1,
    start_time := some ⟨2025, 1, 15, 9, 0, 0, 0⟩, trading_day := "20250115",
    open_ := 3500, high := 3500, low := 3500, close := 3500, tick_count := 1 }

/-- A tick time exactly one month after `c2Bar` started, at 16:00: a
different calendar date but the same day-of-month. -/
def c2Time : DateTime := ⟨2025, 2, 15, 16, 0, 0, 0⟩

/-- A fresh 1-minute bar fed prices 5, 0, 7: the price-0 tick zeroes
`low`, and the price-7 tick then resets `low` to 7 above `open = 5`. -/
def c4CexBar : KLineBar :=
  updates
    (KLineBuilder.createNewBar "rb2505" KLinePeriod.min1 ⟨2025, 12, 23, 9, 30, 0, 0⟩)
    [rbTick 9 30 0 5, rbTick 9 30 10 0, rbTick 9 30 20 7]

/-- A fresh 1-minute bar whose single tick carried price 0, so that
`tick_count = 1` while `open` is still 0. -/
def c5CexBar : KLineBar :=
  (KLineBuilder.createNewBar "rb2505" KLinePeriod.min1
    ⟨2025, 12, 23, 9, 30, 0, 0⟩).update (rbTick 9 30 0 0)

/-- A builder holding one open 1-minute bar and one open 5-minute bar
(both with one tick) for `rb2505`. -/
def c7Builder : KLineBuilder :=
  (builder1m5m.feed [rbTick 9 30 0 3500]).1

/-- A sink that raises on the 1-minute bar and succeeds on the rest. -/
def c7Sink : KLineBar → Bool := fun bar => decide (bar.period ≠ KLinePeriod.min1)

/-- A shutdown wall-clock time (`datetime.now()` at close). -/
def cNow : DateTime := ⟨2025, 12, 23, 15, 30, 0, 0⟩

/-- A builder holding one open 1-minute bar with one tick for `rb2505`. -/
def c8Builder : KLineBuilder :=
  (builder1m.feed [rbTick 9 30 0 3500]).1

/-! Helper lemmas. -/

/-- `elapsedMinutes` is the literal Python expression: the millisecond
difference divided by 1000 (seconds) and then by 60 (minutes). -/
theorem elapsedMinutes_eq_div (st t : DateTime) :
    elapsedMinutes st t =
      (((t.toMillis : Int) - (st.toMillis : Int) : Int) : ℚ) / 1000 / 60 := by
  rw [elapsedMinutes, Rat.divInt_eq_div, div_div]
  norm_num

theorem update_tick_count (bar : KLineBar) (tick : TickData) :
    (bar.update tick).tick_count = bar.tick_count + 1 := by
  simp only [KLineBar.update]
  split_ifs <;> rfl

theorem update_start_time (bar : KLineBar) (tick : TickData) :
    (bar.update tick).start_time = bar.start_time := by
  simp only [KLineBar.update]
  split_ifs <;> rfl

theorem lookupA_mem {α β : Type} [DecidableEq α] {l : List (α × β)}
    {k : α} {v : β} (h : lookupA l k = some v) : (k, v) ∈ l := by
  induction l with
  | nil => simp [lookupA] at h
  | cons kv rest ih =>
    rw [lookupA] at h
    by_cases hk : kv.1 = k
    · rw [if_pos hk] at h
      obtain ⟨a, b⟩ := kv
      obtain rfl : a = k := hk
      obtain rfl : b = v := Option.some.inj h
      exact List.mem_cons_self _ _
    · rw [if_neg hk] at h
      exact List.mem_cons_of_mem _ (ih h)

theorem mem_setA {α β : Type} [DecidableEq α] {l : List (α × β)}
    {k : α} {v : β} {kv' : α × β} (h : kv' ∈ setA l k v) :
    kv' ∈ l ∨ kv' = (k, v) := by
  induction l with
  | nil => simpa [setA] using h
  | cons kv rest ih =>
    rw [setA] at h
    by_cases hk : kv.1 = k
    · rw [if_pos hk] at h
      rcases List.mem_cons.mp h with h1 | h1
      · exact Or.inr h1
      · exact Or.inl (List.mem_cons_of_mem _ h1)
    · rw [if_neg hk] at h
      rcases List.mem_cons.mp h with h1 | h1
      · exact Or.inl (List.mem_cons.mpr (Or.inl h1))
      · rcases ih h1 with h2 | h2
        · exact Or.inl (List.mem_cons_of_mem _ h2)
        · exact Or.inr h2

theorem lookupA_setA_self {α β : Type} [DecidableEq α]
    (l : List (α × β)) (k : α) (v : β) : lookupA (setA l k v) k = some v := by
  induction l with
  | nil => simp [setA, lookupA]
  | cons kv rest ih =>
    rw [setA]
    by_cases hk : kv.1 = k
    · rw [if_pos hk, lookupA, if_pos rfl]
    · rw [if_neg hk, lookupA, if_neg hk]
      exact ih

theorem setA_setA {α β : Type} [DecidableEq α] (l : List (α × β))
    (k : α) (a b : β) : setA (setA l k a) k b = setA l k b := by
  induction l with
  | nil => simp [setA]
  | cons kv rest ih =>
    rw [setA, setA]
    by_cases hk : kv.1 = k
    · rw [if_pos hk, setA, if_pos rfl, if_pos hk]
    · rw [if_neg hk, setA, if_neg hk, if_neg hk, ih]

theorem lookupA_map_val {α β γ : Type} [DecidableEq α] (f : β → γ)
    (l : List (α × β)) (k : α) :
    lookupA (l.map (fun kv => (kv.1, f kv.2))) k = (lookupA l k).map f := by
  induction l with
  | nil => simp [lookupA]
  | cons kv rest ih =>
    rw [List.map_cons, lookupA, lookupA]
    by_cases hk : kv.1 = k
    · simp [hk]
    · simp only [hk, if_false, if_neg hk]
      exact ih

/-! Claim theorems. -/

/-- C1: with only the 1-minute period enabled, the three ticks at
09:30:00 (3500), 09:30:30 (3510), 09:30:45 (3490) on trading day
20251223 produce no sink call and leave a current bar with open 3500,
high 3510, low 3490, close 3490, 3 ticks, unfinished; the fourth tick at
09:31:05 (3505) causes exactly one store of that snapshot, finished with
end time 09:31:05, and the boundary-crossing tick opens the fresh
current bar with all OHLC fields 3505 and one tick. -/
theorem claim1_concrete_1m_scenario :
    KLineBuilder.initB ["1m"] = Except.ok builder1m ∧
    (builder1m.feed [rbTick 9 30 0 3500, rbTick 9 30 30 3510, rbTick 9 30 45 3490]).2 = [] ∧
    KLineBuilder.getCurrentBar
        (builder1m.feed [rbTick 9 30 0 3500, rbTick 9 30 30 3510, rbTick 9 30 45 3490]).1
        "rb2505" KLinePeriod.min1 =
      some { instrument_id := "rb2505", period := KLinePeriod.min1,
             start_time := some ⟨2025, 12, 23, 9, 30, 0, 0⟩,
             trading_day := "20251223",
             open_ := 3500, high := 3510, low := 3490, close := 3490,
             tick_count := 3, is_finished := false } ∧
    (builder1m.feed [rbTick 9 30 0 3500, rbTick 9 30 30 3510, rbTick 9 30 45 3490,
        rbTick 9 31 5 3505]).2 =
      [{ instrument_id := "rb2505", period := KLinePeriod.min1,
         start_time := some ⟨2025, 12, 23, 9, 30, 0, 0⟩,
         end_time := some ⟨2025, 12, 23, 9, 31, 5, 0⟩,
         trading_day := "20251223",
         open_ := 3500, high := 3510, low := 3490, close := 3490,
         tick_count := 3, is_finished := true }] ∧
    KLineBuilder.getCurrentBar
        (builder1m.feed [rbTick 9 30 0 3500, rbTick 9 30 30 3510, rbTick 9 30 45 3490,
          rbTick 9 31 5 3505]).1
        "rb2505" KLinePeriod.min1 =
      some { instrument_id := "rb2505", period := KLinePeriod.min1,
             start_time := some ⟨2025, 12, 23, 9, 31, 0, 0⟩,
             trading_day := "20251223",
             open_ := 3505, high := 3505, low := 3505, close := 3505,
             tick_count := 1, is_finished := false } :=
  ⟨rfl, by decide, by decide, by decide, by decide⟩

/-- C2, counterexample: `c2Time` is a different calendar date from
`c2Bar`'s start (2025-02-15 vs 2025-01-15) with hour 16 ≥ 15, so the
claim requires the should-close decision to be true; the code compares
only the day-of-month (15 = 15) and returns false. -/
theorem claim2_counterexample :
    KLineBuilder.shouldFinishBar c2Bar c2Time = false ∧
    c2Bar.period = KLinePeriod.day1 ∧
    c2Bar.start_time = some ⟨2025, 1, 15, 9, 0, 0, 0⟩ ∧
    (2025, 1, 15) ≠ (c2Time.year, c2Time.month, c2Time.day) ∧
    15 ≤ c2Time.hour := by decide

/-- C2, amended: for the daily period the should-close decision is true
exactly when the tick's day-of-month (not its full calendar date)
differs from `start_time`'s day-of-month and the tick's hour is ≥ 15, or
the day-of-month differs and the hour is ≥ 3; with an equal day-of-month
or an hour < 3 the daily bar stays open. -/
theorem claim2_day_close_rule (bar : KLineBar) (st t : DateTime)
    (hp : bar.period = KLinePeriod.day1) (hst : bar.start_time = some st) :
    KLineBuilder.shouldFinishBar bar t = true ↔
      ((st.day ≠ t.day ∧ 15 ≤ t.hour) ∨ (st.day ≠ t.day ∧ 3 ≤ t.hour)) := by
  rw [KLineBuilder.shouldFinishBar, hst]
  simp only [hp, if_pos rfl]
  split_ifs with h1 h2 <;> simp_all
  all_goals first | tauto | omega

/-- C2 witness: the amended rule applied to the concrete bar of the
counterexample, with a tick at 22:00 on the next day-of-month. -/
theorem claim2_day_close_rule_witness :
    KLineBuilder.shouldFinishBar c2Bar ⟨2025, 1, 16, 22, 0, 0, 0⟩ = true ↔
      ((15 ≠ 16 ∧ 15 ≤ 22) ∨ (15 ≠ 16 ∧ 3 ≤ 22)) :=
  claim2_day_close_rule c2Bar ⟨2025, 1, 15, 9, 0, 0, 0⟩
    ⟨2025, 1, 16, 22, 0, 0, 0⟩ (by decide) (by decide)

theorem fromString_value (p : KLinePeriod) :
    KLinePeriod.fromString p.value = Except.ok p := by
  cases p <;> rfl

theorem fromString_not_mem {s : String} (h : s ∉ canonicalKeys) :
    KLinePeriod.fromString s = Except.error s := by
  rw [KLinePeriod.fromString]
  rw [List.find?_eq_none.mpr]
  intro p _
  cases p <;>
    (rw [Bool.not_eq_true, beq_eq_false_iff_ne]
     intro he
     apply h
     rw [← he]
     decide)

theorem mapM_fromString_error :
    ∀ (l : List String) (s : String), s ∈ l →
      KLinePeriod.fromString s = Except.error s →
      ∃ e, l.mapM KLinePeriod.fromString = Except.error e := by
  intro l
  induction l with
  | nil =>
    intro s hs
    simp at hs
  | cons a rest ih =>
    intro s hs herr
    rw [List.mapM_cons]
    rcases List.mem_cons.mp hs with rfl | hs2
    · exact ⟨s, by rw [herr]; rfl⟩
    · cases hfa : KLinePeriod.fromString a with
      | error e => exact ⟨e, rfl⟩
      | ok p =>
        obtain ⟨e, he⟩ := ih s hs2 herr
        refine ⟨e, ?_⟩
        show (List.mapM KLinePeriod.fromString rest).bind _ = Except.error e
        rw [he]
        rfl

/-- C9: `from_string` succeeds exactly on the eight canonical keys
(returning the period whose key is the input) and raises `ValueError`
on every other string, with case-sensitive exact matching; a builder
constructed with an enabled-period list containing an unknown key
raises at construction. -/
theorem claim9_parse_exact (s : String) :
    (s ∈ canonicalKeys →
      ∃ p, KLinePeriod.fromString s = Except.ok p ∧ p.value = s) ∧
    (s ∉ canonicalKeys → KLinePeriod.fromString s = Except.error s) ∧
    (∀ l : List String, s ∈ l → s ∉ canonicalKeys →
      ∃ e, KLineBuilder.initB l = Except.error e) := by
  refine ⟨?_, ?_, ?_⟩
  · intro h
    fin_cases h
    · exact ⟨KLinePeriod.min1, rfl, rfl⟩
    · exact ⟨KLinePeriod.min3, rfl, rfl⟩
    · exact ⟨KLinePeriod.min5, rfl, rfl⟩
    · exact ⟨KLinePeriod.min10, rfl, rfl⟩
    · exact ⟨KLinePeriod.min15, rfl, rfl⟩
    · exact ⟨KLinePeriod.min30, rfl, rfl⟩
    · exact ⟨KLinePeriod.min60, rfl, rfl⟩
    · exact ⟨KLinePeriod.day1, rfl, rfl⟩
  · exact fromString_not_mem
  · intro l hsl hnk
    obtain ⟨e, he⟩ := mapM_fromString_error l s hsl (fromString_not_mem hnk)
    refine ⟨e, ?_⟩
    rw [KLineBuilder.initB, if_neg (by rintro rfl; simp at hsl), he]

/-- C9 witness: `"5M"` (wrong case) is rejected, and a construction list
containing `" 5m"` (leading blank) fails with an error. -/
theorem claim9_parse_exact_witness :
    KLinePeriod.fromString "5M" = Except.error "5M" ∧
    (∃ e, KLineBuilder.initB ["1m", " 5m"] = Except.error e) :=
  ⟨(claim9_parse_exact "5M").2.1 (by decide),
   (claim9_parse_exact " 5m").2.2 ["1m", " 5m"] (by decide) (by decide)⟩

/-- The flush loop of `close()` stops at the first sink failure: the
flushed prefix, the failing bar, and the untouched suffix. -/
theorem closeFlush_abort (sinkOk : KLineBar → Bool) (now : DateTime) :
    ∀ entries : List KLineBar,
      (KLineBuilder.closeFlush sinkOk now entries).2 = false →
      ∃ pre bar suf, entries = pre ++ bar :: suf ∧ 0 < bar.tick_count ∧
        sinkOk (KLineBuilder.finishBar bar now) = false ∧
        (KLineBuilder.closeFlush sinkOk now pre).2 = true ∧
        (KLineBuilder.closeFlush sinkOk now entries).1 =
          (KLineBuilder.closeFlush sinkOk now pre).1 ++
            [KLineBuilder.finishBar bar now] := by
  intro entries
  induction entries with
  | nil =>
    intro h
    simp [KLineBuilder.closeFlush] at h
  | cons bar rest ih =>
    intro h
    rw [KLineBuilder.closeFlush] at h
    by_cases hc : 0 < bar.tick_count
    · rw [if_pos hc] at h
      by_cases hs : sinkOk (KLineBuilder.finishBar bar now) = true
      · rw [if_pos hs] at h
        obtain ⟨pre, b2, suf, he, hcnt, hsk, hpre, htr⟩ := ih h
        refine ⟨bar :: pre, b2, suf, by rw [List.cons_append, he], hcnt, hsk, ?_, ?_⟩
        · simp [KLineBuilder.closeFlush, hc, hs, hpre]
        · simp [KLineBuilder.closeFlush, hc, hs, htr]
      · refine ⟨[], bar, rest, rfl, hc, by simpa using hs, rfl, ?_⟩
        simp [KLineBuilder.closeFlush, hc, hs]
    · rw [if_neg hc] at h
      obtain ⟨pre, b2, suf, he, hcnt, hsk, hpre, htr⟩ := ih h
      refine ⟨bar :: pre, b2, suf, by rw [List.cons_append, he], hcnt, hsk, ?_, ?_⟩
      · simp [KLineBuilder.closeFlush, hc, hpre]
      · simp [KLineBuilder.closeFlush, hc, htr]

/-- C7, counterexample: `c7Builder` holds an open 1m bar and an open 5m
bar, both with a tick; with a sink that raises on the 1m bar, the
`close()` flush aborts (the exception propagates) and the 5m bar — an
open bar with `tick_count > 0` — is never attempted, contradicting the
claimed per-bar handling. -/
theorem claim7_counterexample :
    (KLineBuilder.closeStores c7Builder c7Sink cNow).2 = false ∧
    (∃ bar ∈ c7Builder.allBars,
      bar.period = KLinePeriod.min5 ∧ 0 < bar.tick_count) ∧
    (∀ bar ∈ (KLineBuilder.closeStores c7Builder c7Sink cNow).1,
      bar.period ≠ KLinePeriod.min5) := by decide

/-- C7, amended: a `store()` failure during `close()` is not handled
per-bar — the loop has no exception handler, so the first failing store
aborts the flush: the bars before the failing one were flushed, the
failing bar itself was attempted, and the remaining open bars are not
attempted. -/
theorem claim7_close_abort_on_failure (b : KLineBuilder)
    (sinkOk : KLineBar → Bool) (now : DateTime)
    (h : (KLineBuilder.closeStores b sinkOk now).2 = false) :
    ∃ pre bar suf, b.allBars = pre ++ bar :: suf ∧ 0 < bar.tick_count ∧
      sinkOk (KLineBuilder.finishBar bar now) = false ∧
      (KLineBuilder.closeFlush sinkOk now pre).2 = true ∧
      (KLineBuilder.closeStores b sinkOk now).1 =
        (KLineBuilder.closeFlush sinkOk now pre).1 ++
          [KLineBuilder.finishBar bar now] :=
  closeFlush_abort sinkOk now b.allBars h

/-- C7 witness: the amended statement at the concrete two-bar builder
with the sink that raises on the 1-minute bar. -/
theorem claim7_close_abort_on_failure_witness :
    ∃ pre bar suf, c7Builder.allBars = pre ++ bar :: suf ∧
      0 < bar.tick_count ∧
      c7Sink (KLineBuilder.finishBar bar cNow) = false ∧
      (KLineBuilder.closeFlush c7Sink cNow pre).2 = true ∧
      (KLineBuilder.closeStores c7Builder c7Sink cNow).1 =
        (KLineBuilder.closeFlush c7Sink cNow pre).1 ++
          [KLineBuilder.finishBar bar cNow] :=
  claim7_close_abort_on_failure c7Builder c7Sink cNow (by decide)

/-- C8, counterexample: after a fully successful `close()` on a builder
holding one open bar, the table is not cleared — it is nonempty and
`get_current_bar` still returns a bar instead of `None`. -/
theorem claim8_counterexample :
    (KLineBuilder.closeStores c8Builder (fun _ => true) cNow).2 = true ∧
    (KLineBuilder.closeState c8Builder cNow).current_bars ≠ [] ∧
    KLineBuilder.getCurrentBar (KLineBuilder.closeState c8Builder cNow)
      "rb2505" KLinePeriod.min1 ≠ none := by decide

/-- C8, amended: `close()` does not clear the internal state: the table
is empty afterwards only if it was empty before, and `get_current_bar`
returns exactly what it returned before the close, except that bars with
at least one tick are now marked finished with `end_time` set. -/
theorem claim8_close_keeps_state (b : KLineBuilder) (now : DateTime)
    (I : String) (p : KLinePeriod) :
    ((KLineBuilder.closeState b now).current_bars = [] ↔
      b.current_bars = []) ∧
    KLineBuilder.getCurrentBar (KLineBuilder.closeState b now) I p =
      (KLineBuilder.getCurrentBar b I p).map
        (fun bar => if 0 < bar.tick_count then KLineBuilder.finishBar bar now
                    else bar) := by
  constructor
  · simp [KLineBuilder.closeState]
  · simp only [KLineBuilder.getCurrentBar, KLineBuilder.closeState]
    rw [lookupA_map_val
      (fun pbs : PeriodBars => pbs.map (fun pb =>
        (pb.1, if 0 < pb.2.tick_count then KLineBuilder.finishBar pb.2 now
               else pb.2)))
      b.current_bars I]
    cases lookupA b.current_bars I with
    | none => rfl
    | some pbs =>
      exact lookupA_map_val
        (fun bar => if 0 < bar.tick_count then KLineBuilder.finishBar bar now
                    else bar) pbs p

/-! Field characterisations of `KLineBar.update` and `updateSpec`. -/

theorem update_instrument_id (bar : KLineBar) (tick : TickData) :
    (bar.update tick).instrument_id = bar.instrument_id := by
  simp only [KLineBar.update]; split_ifs <;> rfl

theorem update_period (bar : KLineBar) (tick : TickData) :
    (bar.update tick).period = bar.period := by
  simp only [KLineBar.update]; split_ifs <;> rfl

theorem update_end_time (bar : KLineBar) (tick : TickData) :
    (bar.update tick).end_time = bar.end_time := by
  simp only [KLineBar.update]; split_ifs <;> rfl

theorem update_is_finished (bar : KLineBar) (tick : TickData) :
    (bar.update tick).is_finished = bar.is_finished := by
  simp only [KLineBar.update]; split_ifs <;> rfl

theorem update_trading_day (bar : KLineBar) (tick : TickData) :
    (bar.update tick).trading_day =
      if bar.trading_day = "" then tick.tradingDay else bar.trading_day := by
  simp only [KLineBar.update]; split_ifs <;> rfl

theorem update_open (bar : KLineBar) (tick : TickData) :
    (bar.update tick).open_ =
      if bar.open_ = 0 then tick.lastPrice else bar.open_ := by
  simp only [KLineBar.update]; split_ifs <;> rfl

theorem update_high (bar : KLineBar) (tick : TickData) :
    (bar.update tick).high =
      if bar.open_ = 0 then tick.lastPrice else max bar.high tick.lastPrice := by
  simp only [KLineBar.update]; split_ifs <;> rfl

theorem update_low (bar : KLineBar) (tick : TickData) :
    (bar.update tick).low =
      if bar.open_ = 0 then tick.lastPrice
      else if bar.low > 0 then min bar.low tick.lastPrice
      else tick.lastPrice := by
  simp only [KLineBar.update]; split_ifs <;> rfl

theorem update_close (bar : KLineBar) (tick : TickData) :
    (bar.update tick).close = tick.lastPrice := by
  simp only [KLineBar.update]; split_ifs <;> rfl

theorem update_volume (bar : KLineBar) (tick : TickData) :
    (bar.update tick).volume = tick.volume := by
  simp only [KLineBar.update]; split_ifs <;> rfl

theorem update_turnover (bar : KLineBar) (tick : TickData) :
    (bar.update tick).turnover = tick.turnover := by
  simp only [KLineBar.update]; split_ifs <;> rfl

theorem update_open_interest (bar : KLineBar) (tick : TickData) :
    (bar.update tick).open_interest = tick.openInterest := by
  simp only [KLineBar.update]; split_ifs <;> rfl

theorem updateSpec_instrument_id (bar : KLineBar) (tick : TickData) :
    (updateSpec bar tick).instrument_id = bar.instrument_id := by
  simp only [updateSpec]; split_ifs <;> rfl

theorem updateSpec_period (bar : KLineBar) (tick : TickData) :
    (updateSpec bar tick).period = bar.period := by
  simp only [updateSpec]; split_ifs <;> rfl

theorem updateSpec_start_time (bar : KLineBar) (tick : TickData) :
    (updateSpec bar tick).start_time = bar.start_time := by
  simp only [updateSpec]; split_ifs <;> rfl

theorem updateSpec_end_time (bar : KLineBar) (tick : TickData) :
    (updateSpec bar tick).end_time = bar.end_time := by
  simp only [updateSpec]; split_ifs <;> rfl

theorem updateSpec_is_finished (bar : KLineBar) (tick : TickData) :
    (updateSpec bar tick).is_finished = bar.is_finished := by
  simp only [updateSpec]; split_ifs <;> rfl

theorem updateSpec_trading_day (bar : KLineBar) (tick : TickData) :
    (updateSpec bar tick).trading_day =
      if bar.tick_count = 0 then tick.tradingDay else bar.trading_day := by
  simp only [updateSpec]; split_ifs <;> rfl

theorem updateSpec_open (bar : KLineBar) (tick : TickData) :
    (updateSpec bar tick).open_ =
      if bar.tick_count = 0 then tick.lastPrice else bar.open_ := by
  simp only [updateSpec]; split_ifs <;> rfl

theorem updateSpec_high (bar : KLineBar) (tick : TickData) :
    (updateSpec bar tick).high =
      if bar.tick_count = 0 then tick.lastPrice
      else max bar.high tick.lastPrice := by
  simp only [updateSpec]; split_ifs <;> rfl

theorem updateSpec_low (bar : KLineBar) (tick : TickData) :
    (updateSpec bar tick).low =
      if bar.tick_count = 0 then tick.lastPrice
      else min bar.low tick.lastPrice := by
  simp only [updateSpec]; split_ifs <;> rfl

theorem updateSpec_close (bar : KLineBar) (tick : TickData) :
    (updateSpec bar tick).close = tick.lastPrice := by
  simp only [updateSpec]; split_ifs <;> rfl

theorem updateSpec_volume (bar : KLineBar) (tick : TickData) :
    (updateSpec bar tick).volume = tick.volume := by
  simp only [updateSpec]

theorem updateSpec_turnover (bar : KLineBar) (tick : TickData) :
    (updateSpec bar tick).turnover = tick.turnover := by
  simp only [updateSpec]

theorem updateSpec_open_interest (bar : KLineBar) (tick : TickData) :
    (updateSpec bar tick).open_interest = tick.openInterest := by
  simp only [updateSpec]

theorem updateSpec_tick_count (bar : KLineBar) (tick : TickData) :
    (updateSpec bar tick).tick_count = bar.tick_count + 1 := by
  simp only [updateSpec]; split_ifs <;> rfl

theorem updates_nil (bar : KLineBar) : updates bar [] = bar := rfl

theorem updates_cons (bar : KLineBar) (tk : TickData) (rest : List TickData) :
    updates bar (tk :: rest) = updates (bar.update tk) rest := rfl

theorem updatesSpec_nil (bar : KLineBar) : updatesSpec bar [] = bar := rfl

theorem updatesSpec_cons (bar : KLineBar) (tk : TickData)
    (rest : List TickData) :
    updatesSpec bar (tk :: rest) = updatesSpec (updateSpec bar tk) rest := rfl

/-! OHLC invariant (C4). -/

theorem update_barPosInv (bar : KLineBar) (tick : TickData)
    (h : barPosInv bar) (hp : 0 < tick.lastPrice) :
    barPosInv (bar.update tick) := by
  unfold barPosInv at h ⊢
  rw [update_open, update_high, update_low, update_close, update_tick_count]
  by_cases ho : bar.open_ = 0
  · rw [if_pos ho, if_pos ho, if_pos ho]
    right
    exact ⟨hp, le_refl _, le_refl _, le_refl _, le_refl _⟩
  · rw [if_neg ho, if_neg ho, if_neg ho]
    rcases h with ⟨hc0, ho0, hl0⟩ | ⟨hq1, hq2, hq3, hq4, hq5⟩
    · exact absurd ho0 ho
    · rw [if_pos hq1]
      right
      exact ⟨lt_min hq1 hp, le_trans (min_le_left _ _) hq2,
        le_trans hq3 (le_max_left _ _), min_le_right _ _, le_max_right _ _⟩

theorem updates_barPosInv :
    ∀ (ticks : List TickData) (bar : KLineBar), barPosInv bar →
      (∀ tk ∈ ticks, 0 < tk.lastPrice) → barPosInv (updates bar ticks) := by
  intro ticks
  induction ticks with
  | nil => intro bar h _; exact h
  | cons tk rest ih =>
    intro bar h hp
    rw [updates_cons]
    exact ih (bar.update tk)
      (update_barPosInv bar tk h (hp tk (List.mem_cons_self _ _)))
      (fun t ht => hp t (List.mem_cons_of_mem _ ht))

/-- C4, counterexample: a fresh bar fed the (unrestricted) last prices
5, 0, 7 ends with `tick_count = 3` but `low = 7 > 5 = open`, so the
claimed invariant fails for arbitrary price sequences. -/
theorem claim4_counterexample :
    0 < c4CexBar.tick_count ∧ ¬(c4CexBar.low ≤ c4CexBar.open_) := by decide

/-- C4, amended: for every bar built from a fresh bar by a sequence of
updates whose last prices are all strictly positive (rather than
arbitrary), whenever `tick_count > 0` the inequalities `low ≤ open ≤
high` and `low ≤ close ≤ high` hold after every update call. -/
theorem claim4_ohlc_invariant (iid : String) (p : KLinePeriod)
    (t0 : DateTime) (ticks : List TickData)
    (hpos : ∀ tk ∈ ticks, 0 < tk.lastPrice) (n : Nat)
    (hcnt : 0 < (updates (KLineBuilder.createNewBar iid p t0)
      (ticks.take n)).tick_count) :
    (updates (KLineBuilder.createNewBar iid p t0) (ticks.take n)).low ≤
        (updates (KLineBuilder.createNewBar iid p t0) (ticks.take n)).open_ ∧
      (updates (KLineBuilder.createNewBar iid p t0) (ticks.take n)).open_ ≤
        (updates (KLineBuilder.createNewBar iid p t0) (ticks.take n)).high ∧
      (updates (KLineBuilder.createNewBar iid p t0) (ticks.take n)).low ≤
        (updates (KLineBuilder.createNewBar iid p t0) (ticks.take n)).close ∧
      (updates (KLineBuilder.createNewBar iid p t0) (ticks.take n)).close ≤
        (updates (KLineBuilder.createNewBar iid p t0) (ticks.take n)).high := by
  have hfresh : barPosInv (KLineBuilder.createNewBar iid p t0) :=
    Or.inl ⟨rfl, rfl, rfl⟩
  have hinv := updates_barPosInv (ticks.take n)
    (KLineBuilder.createNewBar iid p t0) hfresh
    (fun tk ht => hpos tk (List.take_subset n ticks ht))
  rcases hinv with ⟨hz, _, _⟩ | ⟨_, hq2, hq3, hq4, hq5⟩
  · rw [hz] at hcnt
    exact absurd hcnt (lt_irrefl 0)
  · exact ⟨hq2, hq3, hq4, hq5⟩

/-- C4 witness: the amended invariant applied to two positive-price
ticks. -/
theorem claim4_ohlc_invariant_witness :
    (updates (KLineBuilder.createNewBar "rb2505" KLinePeriod.min1
        ⟨2025, 12, 23, 9, 30, 0, 0⟩)
      (([rbTick 9 30 0 3500, rbTick 9 30 10 3510]).take 2)).low ≤
      (updates (KLineBuilder.createNewBar "rb2505" KLinePeriod.min1
          ⟨2025, 12, 23, 9, 30, 0, 0⟩)
        (([rbTick 9 30 0 3500, rbTick 9 30 10 3510]).take 2)).open_ ∧
    (updates (KLineBuilder.createNewBar "rb2505" KLinePeriod.min1
        ⟨2025, 12, 23, 9, 30, 0, 0⟩)
      (([rbTick 9 30 0 3500, rbTick 9 30 10 3510]).take 2)).open_ ≤
      (updates (KLineBuilder.createNewBar "rb2505" KLinePeriod.min1
          ⟨2025, 12, 23, 9, 30, 0, 0⟩)
        (([rbTick 9 30 0 3500, rbTick 9 30 10 3510]).take 2)).high ∧
    (updates (KLineBuilder.createNewBar "rb2505" KLinePeriod.min1
        ⟨2025, 12, 23, 9, 30, 0, 0⟩)
      (([rbTick 9 30 0 3500, rbTick 9 30 10 3510]).take 2)).low ≤
      (updates (KLineBuilder.createNewBar "rb2505" KLinePeriod.min1
          ⟨2025, 12, 23, 9, 30, 0, 0⟩)
        (([rbTick 9 30 0 3500, rbTick 9 30 10 3510]).take 2)).close ∧
    (updates (KLineBuilder.createNewBar "rb2505" KLinePeriod.min1
        ⟨2025, 12, 23, 9, 30, 0, 0⟩)
      (([rbTick 9 30 0 3500, rbTick 9 30 10 3510]).take 2)).close ≤
      (updates (KLineBuilder.createNewBar "rb2505" KLinePeriod.min1
          ⟨2025, 12, 23, 9, 30, 0, 0⟩)
        (([rbTick 9 30 0 3500, rbTick 9 30 10 3510]).take 2)).high :=
  claim4_ohlc_invariant "rb2505" KLinePeriod.min1 ⟨2025, 12, 23, 9, 30, 0, 0⟩
    [rbTick 9 30 0 3500, rbTick 9 30 10 3510] (by decide) 2 (by decide)

/-! Source `update` versus the spec wording of update (C5). -/

theorem update_barSyncInv (bar : KLineBar) (tick : TickData)
    (h : barSyncInv bar) (hp : 0 < tick.lastPrice)
    (ht : tick.tradingDay ≠ "") : barSyncInv (bar.update tick) := by
  obtain ⟨h0, h1⟩ := h
  constructor
  · intro hc
    rw [update_tick_count] at hc
    omega
  · intro _
    by_cases hc : bar.tick_count = 0
    · obtain ⟨ho, htd⟩ := h0 hc
      refine ⟨?_, ?_, ?_⟩
      · rw [update_low, if_pos ho]; exact hp
      · rw [update_open, if_pos ho]; exact hp
      · rw [update_trading_day, if_pos htd]; exact ht
    · obtain ⟨hlow, hopen, htd⟩ := h1 hc
      have ho : bar.open_ ≠ 0 := ne_of_gt hopen
      refine ⟨?_, ?_, ?_⟩
      · rw [update_low, if_neg ho, if_pos hlow]; exact lt_min hlow hp
      · rw [update_open, if_neg ho]; exact hopen
      · rw [update_trading_day, if_neg htd]; exact htd

theorem update_eq_updateSpec (bar : KLineBar) (tick : TickData)
    (h : barSyncInv bar) : bar.update tick = updateSpec bar tick := by
  obtain ⟨h0, h1⟩ := h
  by_cases hc : bar.tick_count = 0
  · obtain ⟨ho, htd⟩ := h0 hc
    ext
    · rw [update_instrument_id, updateSpec_instrument_id]
    · rw [update_period, updateSpec_period]
    · rw [update_start_time, updateSpec_start_time]
    · rw [update_end_time, updateSpec_end_time]
    · rw [update_trading_day, updateSpec_trading_day, if_pos htd, if_pos hc]
    · rw [update_open, updateSpec_open, if_pos ho, if_pos hc]
    · rw [update_high, updateSpec_high, if_pos ho, if_pos hc]
    · rw [update_low, updateSpec_low, if_pos ho, if_pos hc]
    · rw [update_close, updateSpec_close]
    · rw [update_volume, updateSpec_volume]
    · rw [update_turnover, updateSpec_turnover]
    · rw [update_open_interest, updateSpec_open_interest]
    · rw [update_tick_count, updateSpec_tick_count]
    · rw [update_is_finished, updateSpec_is_finished]
  · obtain ⟨hlow, hopen, htd⟩ := h1 hc
    have ho : bar.open_ ≠ 0 := ne_of_gt hopen
    ext
    · rw [update_instrument_id, updateSpec_instrument_id]
    · rw [update_period, updateSpec_period]
    · rw [update_start_time, updateSpec_start_time]
    · rw [update_end_time, updateSpec_end_time]
    · rw [update_trading_day, updateSpec_trading_day, if_neg htd, if_neg hc]
    · rw [update_open, updateSpec_open, if_neg ho, if_neg hc]
    · rw [update_high, updateSpec_high, if_neg ho, if_neg hc]
    · rw [update_low, updateSpec_low, if_neg ho, if_pos hlow, if_neg hc]
    · rw [update_close, updateSpec_close]
    · rw [update_volume, updateSpec_volume]
    · rw [update_turnover, updateSpec_turnover]
    · rw [update_open_interest, updateSpec_open_interest]
    · rw [update_tick_count, updateSpec_tick_count]
    · rw [update_is_finished, updateSpec_is_finished]

theorem updates_eq_updatesSpec :
    ∀ (ticks : List TickData) (bar : KLineBar), barSyncInv bar →
      (∀ tk ∈ ticks, 0 < tk.lastPrice ∧ tk.tradingDay ≠ "") →
      updates bar ticks = updatesSpec bar ticks := by
  intro ticks
  induction ticks with
  | nil => intro bar _ _; rfl
  | cons tk rest ih =>
    intro bar h hcond
    obtain ⟨hp, ht⟩ := hcond tk (List.mem_cons_self _ _)
    rw [updates_cons, updatesSpec_cons,
      ← update_eq_updateSpec bar tk h]
    exact ih (bar.update tk) (update_barSyncInv bar tk h hp ht)
      (fun t htk => hcond t (List.mem_cons_of_mem _ htk))

/-- C5, counterexample: after a first tick with last price 0 the bar has
`tick_count = 1` but `open = 0`, so on the next tick the source code
re-enters its first-update branch (it tests `open == 0`) while the
claimed behaviour takes the otherwise-branch (it tests
`tick_count == 0`); the results differ. -/
theorem claim5_counterexample :
    c5CexBar.update (rbTick 9 30 10 5) ≠ updateSpec c5CexBar (rbTick 9 30 10 5) := by
  decide

/-- C5, amended: on any tick sequence whose last prices are strictly
positive and whose ticks carry a nonempty trading day, starting from a
fresh bar, the source's `update` (branching on `open == 0`, guarding the
low update with `low > 0`, and setting `trading_day` only while it is
empty) coincides step by step with the behaviour described by the claim
(`updateSpec`); in general the source branches on `open == 0`, not
`tick_count == 0`. -/
theorem claim5_update_behavior (iid : String) (p : KLinePeriod)
    (t0 : DateTime) (ticks : List TickData)
    (h : ∀ tk ∈ ticks, 0 < tk.lastPrice ∧ tk.tradingDay ≠ "") :
    updates (KLineBuilder.createNewBar iid p t0) ticks =
      updatesSpec (KLineBuilder.createNewBar iid p t0) ticks :=
  updates_eq_updatesSpec ticks (KLineBuilder.createNewBar iid p t0)
    ⟨fun _ => ⟨rfl, rfl⟩, fun hh => absurd rfl hh⟩ h

/-- C5 witness: the amended equality evaluated on the three concrete
scenario ticks. -/
theorem claim5_update_behavior_witness :
    updates (KLineBuilder.createNewBar "rb2505" KLinePeriod.min1
        ⟨2025, 12, 23, 9, 30, 0, 0⟩)
      [rbTick 9 30 0 3500, rbTick 9 30 30 3510, rbTick 9 30 45 3490] =
    updatesSpec (KLineBuilder.createNewBar "rb2505" KLinePeriod.min1
        ⟨2025, 12, 23, 9, 30, 0, 0⟩)
      [rbTick 9 30 0 3500, rbTick 9 30 30 3510, rbTick 9 30 45 3490] :=
  claim5_update_behavior "rb2505" KLinePeriod.min1 ⟨2025, 12, 23, 9, 30, 0, 0⟩
    [rbTick 9 30 0 3500, rbTick 9 30 30 3510, rbTick 9 30 45 3490] (by decide)

/-! Invariants of the builder's current-bar table. -/

theorem finishBar_tick_count (bar : KLineBar) (now : DateTime) :
    (KLineBuilder.finishBar bar now).tick_count = bar.tick_count := rfl

theorem feed_nil (b : KLineBuilder) : KLineBuilder.feed b [] = (b, []) := rfl

theorem feed_cons (b : KLineBuilder) (tk : TickData) (rest : List TickData) :
    KLineBuilder.feed b (tk :: rest) =
      ((KLineBuilder.feed (KLineBuilder.onTick b tk).1 rest).1,
       (KLineBuilder.onTick b tk).2 ++
         (KLineBuilder.feed (KLineBuilder.onTick b tk).1 rest).2) := rfl

/-- `_update_kline` replaces exactly the entry at the given period by an
updated bar: either a freshly created one (period absent, or window
rolled over) or the existing current bar. -/
theorem updateKline_fst (bars : PeriodBars) (iid : String) (p : KLinePeriod)
    (tick : TickData) (t : DateTime) :
    ∃ z, (KLineBuilder.updateKline bars iid p tick t).1 =
        setA bars p (z.update tick) ∧
      (z = KLineBuilder.createNewBar iid p t ∨ lookupA bars p = some z) := by
  rw [KLineBuilder.updateKline]
  cases hl : lookupA bars p with
  | none =>
    simp only [hl, lookupA_setA_self]
    split_ifs with hf
    · exact ⟨KLineBuilder.createNewBar iid p t, by rw [setA_setA], Or.inl rfl⟩
    · exact ⟨KLineBuilder.createNewBar iid p t, by rw [setA_setA], Or.inl rfl⟩
  | some cur =>
    simp only [hl]
    split_ifs with hf
    · exact ⟨KLineBuilder.createNewBar iid p t, rfl, Or.inl rfl⟩
    · exact ⟨cur, rfl, Or.inr rfl⟩

theorem updatePeriods_inv {P : KLineBar → Prop} (iid : String)
    (tick : TickData) (t : DateTime) :
    ∀ (ps : List KLinePeriod) (bars : PeriodBars),
      (∀ pb ∈ bars, P pb.2) →
      (∀ p ∈ ps, P ((KLineBuilder.createNewBar iid p t).update tick)) →
      (∀ bar, P bar → P (bar.update tick)) →
      ∀ pb ∈ (KLineBuilder.updatePeriods iid tick t ps bars).1, P pb.2 := by
  intro ps
  induction ps with
  | nil =>
    intro bars hb _ _ pb hpb
    rw [KLineBuilder.updatePeriods] at hpb
    exact hb pb hpb
  | cons p ps ih =>
    intro bars hb hcr hupd pb hpb
    rw [KLineBuilder.updatePeriods] at hpb
    obtain ⟨z, hz, hzc⟩ := updateKline_fst bars iid p tick t
    refine ih (KLineBuilder.updateKline bars iid p tick t).1 ?_ ?_ hupd pb hpb
    · intro pb2 hpb2
      rw [hz] at hpb2
      rcases mem_setA hpb2 with h1 | h1
      · exact hb pb2 h1
      · rw [h1]
        rcases hzc with rfl | hzl
        · exact hcr p (List.mem_cons_self _ _)
        · exact hupd z (hb (p, z) (lookupA_mem hzl))
    · exact fun q hq => hcr q (List.mem_cons_of_mem _ hq)

theorem getCurrentBar_mem_allBars (b : KLineBuilder) (I : String)
    (p : KLinePeriod) (bar : KLineBar)
    (h : KLineBuilder.getCurrentBar b I p = some bar) : bar ∈ b.allBars := by
  rw [KLineBuilder.getCurrentBar] at h
  cases hl : lookupA b.current_bars I with
  | none => rw [hl] at h; exact absurd h (by simp)
  | some pbs =>
    rw [hl] at h
    have h2 : lookupA pbs p = some bar := h
    rw [KLineBuilder.allBars]
    exact List.mem_flatMap.mpr
      ⟨(I, pbs), lookupA_mem hl, List.mem_map.mpr ⟨(p, bar), lookupA_mem h2, rfl⟩⟩

theorem onTick_enabled (b : KLineBuilder) (tick : TickData) :
    (KLineBuilder.onTick b tick).1.enabled_periods = b.enabled_periods := by
  rw [KLineBuilder.onTick]
  split <;> rfl

/-- A per-bar property that updated-fresh bars have and that `update`
preserves holds for every bar in the table after `on_tick`. -/
theorem onTick_allBars_inv {P : KLineBar → Prop} (b : KLineBuilder)
    (tick : TickData)
    (hb : ∀ bar ∈ b.allBars, P bar)
    (hcr : ∀ (iid : String) (p : KLinePeriod), p ∈ b.enabled_periods →
      P ((KLineBuilder.createNewBar iid p tick.time).update tick))
    (hupd : ∀ bar, P bar → P (bar.update tick)) :
    ∀ bar ∈ (KLineBuilder.onTick b tick).1.allBars, P bar := by
  rw [KLineBuilder.onTick]
  split_ifs with hi
  · exact hb
  · intro bar hbar
    rw [KLineBuilder.allBars] at hbar
    obtain ⟨ib, hib, hbar2⟩ := List.mem_flatMap.mp hbar
    rcases mem_setA hib with h1 | h1
    · exact hb bar (List.mem_flatMap.mpr ⟨ib, h1, hbar2⟩)
    · rw [h1] at hbar2
      obtain ⟨pb, hpb, rfl⟩ := List.mem_map.mp hbar2
      refine updatePeriods_inv tick.instrumentID tick tick.time
        b.enabled_periods _ ?_ (fun p hp => hcr tick.instrumentID p hp) hupd pb hpb
      intro pb2 hpb2
      cases hl : lookupA b.current_bars tick.instrumentID with
      | none => rw [hl] at hpb2; exact absurd hpb2 (by simp)
      | some pbs =>
        rw [hl] at hpb2
        have h3 : pb2 ∈ pbs := hpb2
        exact hb pb2.2 (List.mem_flatMap.mpr
          ⟨(tick.instrumentID, pbs), lookupA_mem hl,
           List.mem_map.mpr ⟨pb2, h3, rfl⟩⟩)

theorem feed_allBars_inv {P : KLineBar → Prop} :
    ∀ (ticks : List TickData) (b : KLineBuilder),
      (∀ bar ∈ b.allBars, P bar) →
      (∀ (iid : String) (p : KLinePeriod) (tk : TickData), tk ∈ ticks →
        p ∈ b.enabled_periods →
        P ((KLineBuilder.createNewBar iid p tk.time).update tk)) →
      (∀ (bar : KLineBar) (tk : TickData), tk ∈ ticks → P bar →
        P (bar.update tk)) →
      ∀ bar ∈ (KLineBuilder.feed b ticks).1.allBars, P bar := by
  intro ticks
  induction ticks with
  | nil => intro b hb _ _ bar hbar; exact hb bar hbar
  | cons tk rest ih =>
    intro b hb hcr hupd bar hbar
    rw [KLineBuilder.feed] at hbar
    refine ih (KLineBuilder.onTick b tk).1 ?_ ?_ ?_ bar hbar
    · exact onTick_allBars_inv b tk hb
        (fun iid p hp => hcr iid p tk (List.mem_cons_self _ _) hp)
        (fun bar2 h2 => hupd bar2 tk (List.mem_cons_self _ _) h2)
    · intro iid p tk2 htk2 hp
      rw [onTick_enabled] at hp
      exact hcr iid p tk2 (List.mem_cons_of_mem _ htk2) hp
    · exact fun bar2 tk2 htk2 h2 => hupd bar2 tk2 (List.mem_cons_of_mem _ htk2) h2

theorem initB_current_bars {ps : List String} {b : KLineBuilder}
    (h : KLineBuilder.initB ps = Except.ok b) : b.current_bars = [] := by
  rw [KLineBuilder.initB] at h
  by_cases hp : ps = []
  · rw [if_pos hp] at h
    rw [← Except.ok.inj h]
  · rw [if_neg hp] at h
    cases hm : ps.mapM KLinePeriod.fromString with
    | ok l =>
      rw [hm] at h
      have h2 : Except.ok { enabled_periods := l : KLineBuilder } =
          Except.ok b := h
      rw [← Except.ok.inj h2]
    | error e =>
      rw [hm] at h
      exact absurd h (by simp)

theorem initB_single (p : KLinePeriod) (b : KLineBuilder)
    (h : KLineBuilder.initB [p.value] = Except.ok b) :
    b = { enabled_periods := [p] } := by
  have h2 : KLineBuilder.initB [p.value] =
      Except.ok { enabled_periods := [p] } := by
    rw [KLineBuilder.initB, if_neg (by simp)]
    have h3 : ([p.value]).mapM KLinePeriod.fromString = Except.ok [p] := by
      show (KLinePeriod.fromString p.value).bind (fun q => Except.ok [q]) =
        Except.ok [p]
      rw [fromString_value]
      rfl
    rw [h3]
  rw [h2] at h
  exact (Except.ok.inj h).symm

theorem closeFlush_mem_pos (sinkOk : KLineBar → Bool) (now : DateTime) :
    ∀ (entries : List KLineBar) (bar : KLineBar),
      bar ∈ (KLineBuilder.closeFlush sinkOk now entries).1 →
      0 < bar.tick_count := by
  intro entries
  induction entries with
  | nil =>
    intro bar h
    rw [KLineBuilder.closeFlush] at h
    exact absurd h (by simp)
  | cons e rest ih =>
    intro bar h
    rw [KLineBuilder.closeFlush] at h
    by_cases hc : 0 < e.tick_count
    · rw [if_pos hc] at h
      by_cases hs : sinkOk (KLineBuilder.finishBar e now) = true
      · rw [if_pos hs] at h
        have h3 : bar ∈ KLineBuilder.finishBar e now ::
            (KLineBuilder.closeFlush sinkOk now rest).1 := h
        rcases List.mem_cons.mp h3 with rfl | h2
        · exact hc
        · exact ih bar h2
      · rw [if_neg hs] at h
        have h3 : bar ∈ [KLineBuilder.finishBar e now] := h
        rcases List.mem_cons.mp h3 with rfl | h2
        · exact hc
        · exact absurd h2 (by simp)
    · rw [if_neg hc] at h
      exact ih bar h

/-- C3: a newly created minute-period bar starts at the tick time with
its minute truncated down to a multiple of the period duration
(`minute - minute mod d`) and seconds and sub-seconds zeroed; in
particular, in a builder constructed for the 5m period alone, every
current bar — the first bar of any instrument included — has a
`start_time` minute that is a multiple of 5, whatever the second and
millisecond of the tick. -/
theorem claim3_alignment :
    (∀ p : KLinePeriod, p ≠ KLinePeriod.day1 → ∀ (iid : String) (t : DateTime),
      (KLineBuilder.createNewBar iid p t).start_time =
        some { t with minute := t.minute - t.minute % p.minutes,
                      second := 0, millisec := 0 }) ∧
    (∀ b0 : KLineBuilder, KLineBuilder.initB ["5m"] = Except.ok b0 →
      ∀ (ticks : List TickData) (I : String) (p : KLinePeriod)
        (bar : KLineBar),
        KLineBuilder.getCurrentBar (KLineBuilder.feed b0 ticks).1 I p =
          some bar →
        ∃ st, bar.start_time = some st ∧ st.minute % 5 = 0) := by
  constructor
  · intro p hp iid t
    simp only [KLineBuilder.createNewBar, KLineBuilder.alignTime, if_neg hp]
    have h1 := Nat.mod_add_div t.minute p.minutes
    have h2 : t.minute / p.minutes * p.minutes =
        t.minute - t.minute % p.minutes := by
      rw [Nat.mul_comm]
      exact Nat.eq_sub_of_add_eq (by rw [Nat.add_comm]; exact h1)
    rw [h2]
  · intro b0 h0 ticks I p bar hbar
    have hb := initB_single KLinePeriod.min5 b0 h0
    subst hb
    refine @feed_allBars_inv
      (fun bar2 => ∃ st, bar2.start_time = some st ∧ st.minute % 5 = 0)
      ticks { enabled_periods := [KLinePeriod.min5] }
      ?_ ?_ ?_ bar (getCurrentBar_mem_allBars _ _ _ _ hbar)
    · intro bar2 hbar2
      exact absurd hbar2 (by simp [KLineBuilder.allBars])
    · intro iid q tk _ hq
      have hq5 : q = KLinePeriod.min5 := by simpa using hq
      subst hq5
      refine ⟨KLineBuilder.alignTime tk.time KLinePeriod.min5, ?_, ?_⟩
      · rw [update_start_time]
        rfl
      · show tk.time.minute / 5 * 5 % 5 = 0
        exact Nat.mul_mod_left _ _
    · intro bar2 tk _ h2
      obtain ⟨st, hst, hst5⟩ := h2
      exact ⟨st, by rw [update_start_time]; exact hst, hst5⟩

/-- C3 witness: the alignment formula at 09:37:25 for 5m (minute 35),
and the table invariant after one concrete tick at 09:37:25. -/
theorem claim3_alignment_witness :
    (KLineBuilder.createNewBar "rb2505" KLinePeriod.min5
        ⟨2025, 12, 23, 9, 37, 25, 0⟩).start_time =
      some { year := 2025, month := 12, day := 23, hour := 9,
             minute := 37 - 37 % KLinePeriod.min5.minutes, second := 0,
             millisec := 0 } ∧
    (∃ st,
      ({ instrument_id := "rb2505", period := KLinePeriod.min5,
         start_time := some ⟨2025, 12, 23, 9, 35, 0, 0⟩,
         trading_day := "20251223", open_ := 3500, high := 3500, low := 3500,
         close := 3500, tick_count := 1 } : KLineBar).start_time = some st ∧
      st.minute % 5 = 0) :=
  ⟨claim3_alignment.1 KLinePeriod.min5 (by decide) "rb2505"
      ⟨2025, 12, 23, 9, 37, 25, 0⟩,
   claim3_alignment.2 { enabled_periods := [KLinePeriod.min5] } rfl
     [rbTick 9 37 25 3500] "rb2505" KLinePeriod.min5
     { instrument_id := "rb2505", period := KLinePeriod.min5,
       start_time := some ⟨2025, 12, 23, 9, 35, 0, 0⟩,
       trading_day := "20251223", open_ := 3500, high := 3500, low := 3500,
       close := 3500, tick_count := 1 } (by decide)⟩

/-- C10: every bar in the builder's table after any tick feed has
`tick_count ≥ 1` (a created bar is updated with the triggering tick in
the same `on_tick` call), so `get_current_bar` never exposes a zero-tick
bar and the `close()` flush never stores one. -/
theorem claim10_no_zero_tick_bars (ps : List String) (b0 : KLineBuilder)
    (h0 : KLineBuilder.initB ps = Except.ok b0) (ticks : List TickData) :
    (∀ bar ∈ (KLineBuilder.feed b0 ticks).1.allBars, 1 ≤ bar.tick_count) ∧
    (∀ (I : String) (p : KLinePeriod) (bar : KLineBar),
      KLineBuilder.getCurrentBar (KLineBuilder.feed b0 ticks).1 I p =
        some bar → 1 ≤ bar.tick_count) ∧
    (∀ (sinkOk : KLineBar → Bool) (now : DateTime) (bar : KLineBar),
      bar ∈ (KLineBuilder.closeStores (KLineBuilder.feed b0 ticks).1
        sinkOk now).1 → 1 ≤ bar.tick_count) := by
  have hmain : ∀ bar ∈ (KLineBuilder.feed b0 ticks).1.allBars,
      1 ≤ bar.tick_count := by
    apply feed_allBars_inv
    · intro bar hbar
      rw [KLineBuilder.allBars, initB_current_bars h0] at hbar
      exact absurd hbar (by simp)
    · intro iid p tk _ _
      rw [update_tick_count]
      omega
    · intro bar tk _ _
      rw [update_tick_count]
      omega
  refine ⟨hmain,
    fun I p bar hb => hmain bar (getCurrentBar_mem_allBars _ _ _ _ hb), ?_⟩
  intro sinkOk now bar hbar
  exact closeFlush_mem_pos sinkOk now _ bar hbar

/-- C10 witness: the invariant instantiated on a concrete one-tick
feed through a 1m-only builder. -/
theorem claim10_no_zero_tick_bars_witness :
    (∀ bar ∈ (KLineBuilder.feed builder1m [rbTick 9 30 0 3500]).1.allBars,
      1 ≤ bar.tick_count) ∧
    (∀ (I : String) (p : KLinePeriod) (bar : KLineBar),
      KLineBuilder.getCurrentBar
        (KLineBuilder.feed builder1m [rbTick 9 30 0 3500]).1 I p =
        some bar → 1 ≤ bar.tick_count) ∧
    (∀ (sinkOk : KLineBar → Bool) (now : DateTime) (bar : KLineBar),
      bar ∈ (KLineBuilder.closeStores
        (KLineBuilder.feed builder1m [rbTick 9 30 0 3500]).1 sinkOk now).1 →
      1 ≤ bar.tick_count) :=
  claim10_no_zero_tick_bars ["1m"] builder1m rfl [rbTick 9 30 0 3500]

/-! Single-(instrument, period) computations of `on_tick`, used for the
shutdown-flush claim (C6). -/

theorem onTick_single_step (p : KLinePeriod) (I : String) (hI : I ≠ "")
    (b : KLineBuilder) (bar : KLineBar) (tk : TickData)
    (hen : b.enabled_periods = [p]) (hcb : b.current_bars = [(I, [(p, bar)])])
    (htk : tk.instrumentID = I)
    (hnf : KLineBuilder.shouldFinishBar bar tk.time = false) :
    (KLineBuilder.onTick b tk).1.current_bars = [(I, [(p, bar.update tk)])] ∧
    (KLineBuilder.onTick b tk).2 = [] := by
  rw [KLineBuilder.onTick, if_neg (by rw [htk]; exact hI)]
  constructor
  · simp [htk, hcb, hen, KLineBuilder.updatePeriods, KLineBuilder.updateKline,
      lookupA, setA, hnf]
  · simp [htk, hcb, hen, KLineBuilder.updatePeriods, KLineBuilder.updateKline,
      lookupA, setA, hnf]

theorem onTick_single_emit (p : KLinePeriod) (I : String) (hI : I ≠ "")
    (b : KLineBuilder) (bar : KLineBar) (tk : TickData)
    (hen : b.enabled_periods = [p]) (hcb : b.current_bars = [(I, [(p, bar)])])
    (htk : tk.instrumentID = I)
    (hf : KLineBuilder.shouldFinishBar bar tk.time = true) :
    (KLineBuilder.onTick b tk).2 = [KLineBuilder.finishBar bar tk.time] := by
  rw [KLineBuilder.onTick, if_neg (by rw [htk]; exact hI)]
  simp [htk, hcb, hen, KLineBuilder.updatePeriods, KLineBuilder.updateKline,
    lookupA, setA, hf, KLineBuilder.finishBar]

theorem onTick_first_step (p : KLinePeriod) (I : String) (hI : I ≠ "")
    (b : KLineBuilder) (tk : TickData)
    (hen : b.enabled_periods = [p]) (hcb : b.current_bars = [])
    (htk : tk.instrumentID = I)
    (hnf : KLineBuilder.shouldFinishBar
      (KLineBuilder.createNewBar I p tk.time) tk.time = false) :
    (KLineBuilder.onTick b tk).1.current_bars =
      [(I, [(p, (KLineBuilder.createNewBar I p tk.time).update tk)])] ∧
    (KLineBuilder.onTick b tk).2 = [] := by
  rw [KLineBuilder.onTick, if_neg (by rw [htk]; exact hI)]
  constructor
  · simp [htk, hcb, hen, KLineBuilder.updatePeriods, KLineBuilder.updateKline,
      lookupA, setA, hnf]
  · simp [htk, hcb, hen, KLineBuilder.updatePeriods, KLineBuilder.updateKline,
      lookupA, setA, hnf]

theorem onTick_first_emit (p : KLinePeriod) (I : String) (hI : I ≠ "")
    (b : KLineBuilder) (tk : TickData)
    (hen : b.enabled_periods = [p]) (hcb : b.current_bars = [])
    (htk : tk.instrumentID = I)
    (hf : KLineBuilder.shouldFinishBar
      (KLineBuilder.createNewBar I p tk.time) tk.time = true) :
    (KLineBuilder.onTick b tk).2 =
      [KLineBuilder.finishBar (KLineBuilder.createNewBar I p tk.time)
        tk.time] := by
  rw [KLineBuilder.onTick, if_neg (by rw [htk]; exact hI)]
  simp [htk, hcb, hen, KLineBuilder.updatePeriods, KLineBuilder.updateKline,
    lookupA, setA, hf, KLineBuilder.finishBar]

/-- Feeding boundary-free ticks for one (instrument, period) pair keeps
a single current bar whose `tick_count` grows by one per tick. -/
theorem feed_single_bar (p : KLinePeriod) (I : String) (hI : I ≠ "") :
    ∀ (ticks : List TickData) (b : KLineBuilder) (bar : KLineBar),
      b.enabled_periods = [p] →
      b.current_bars = [(I, [(p, bar)])] →
      (∀ tk ∈ ticks, tk.instrumentID = I) →
      (KLineBuilder.feed b ticks).2 = [] →
      ∃ bar2, (KLineBuilder.feed b ticks).1.current_bars =
          [(I, [(p, bar2)])] ∧
        bar2.tick_count = bar.tick_count + ticks.length := by
  intro ticks
  induction ticks with
  | nil =>
    intro b bar hen hcb _ _
    exact ⟨bar, by rw [feed_nil]; exact hcb, by simp⟩
  | cons tk rest ih =>
    intro b bar hen hcb hall hemit
    have htkI : tk.instrumentID = I := hall tk (List.mem_cons_self _ _)
    rw [feed_cons] at hemit ⊢
    obtain ⟨he1, he2⟩ := List.append_eq_nil.mp hemit
    by_cases hf : KLineBuilder.shouldFinishBar bar tk.time = true
    · rw [onTick_single_emit p I hI b bar tk hen hcb htkI hf] at he1
      exact absurd he1 (by simp)
    · have hstep := onTick_single_step p I hI b bar tk hen hcb htkI
        (by simpa using hf)
      obtain ⟨bar2, hcb2, hcnt2⟩ := ih (KLineBuilder.onTick b tk).1
        (bar.update tk) (by rw [onTick_enabled]; exact hen) hstep.1
        (fun t ht => hall t (List.mem_cons_of_mem _ ht)) he2
      refine ⟨bar2, hcb2, ?_⟩
      rw [hcnt2, update_tick_count, List.length_cons]
      omega

/-- C6: after feeding k ≥ 1 ticks for one (instrument, period) pair to a
fresh builder without any tick crossing a window boundary (so the feed
produced no store call), `close()` makes exactly one store call for that
pair, whose bar has `tick_count = k`, `is_finished = true`, and
`end_time` set to the close time. -/
theorem claim6_shutdown_flush (p : KLinePeriod) (I : String)
    (ticks : List TickData) (b0 : KLineBuilder) (now : DateTime)
    (h0 : KLineBuilder.initB [p.value] = Except.ok b0)
    (hI : I ≠ "") (hne : ticks ≠ [])
    (hall : ∀ tk ∈ ticks, tk.instrumentID = I)
    (hemit : (KLineBuilder.feed b0 ticks).2 = []) :
    ∃ bar, KLineBuilder.closeStores (KLineBuilder.feed b0 ticks).1
        (fun _ => true) now = ([bar], true) ∧
      bar.tick_count = ticks.length ∧ bar.is_finished = true ∧
      bar.end_time = some now := by
  obtain ⟨t1, rest, rfl⟩ := List.exists_cons_of_ne_nil hne
  have hb0 : b0 = { enabled_periods := [p] } := initB_single p b0 h0
  subst hb0
  rw [feed_cons] at hemit ⊢
  obtain ⟨he1, he2⟩ := List.append_eq_nil.mp hemit
  have ht1 : t1.instrumentID = I := hall t1 (List.mem_cons_self _ _)
  by_cases hf : KLineBuilder.shouldFinishBar
      (KLineBuilder.createNewBar I p t1.time) t1.time = true
  · rw [onTick_first_emit p I hI { enabled_periods := [p] } t1 rfl rfl ht1
      hf] at he1
    exact absurd he1 (by simp)
  · have hstep := onTick_first_step p I hI { enabled_periods := [p] } t1
      rfl rfl ht1 (by simpa using hf)
    obtain ⟨bar2, hcb2, hcnt2⟩ := feed_single_bar p I hI rest
      (KLineBuilder.onTick { enabled_periods := [p] } t1).1
      ((KLineBuilder.createNewBar I p t1.time).update t1)
      (by rw [onTick_enabled]) hstep.1
      (fun tk htk => hall tk (List.mem_cons_of_mem _ htk)) he2
    have hpos : 0 < bar2.tick_count := by
      rw [hcnt2, update_tick_count]
      omega
    refine ⟨KLineBuilder.finishBar bar2 now, ?_, ?_, rfl, rfl⟩
    · rw [KLineBuilder.closeStores, KLineBuilder.allBars, hcb2]
      simp [KLineBuilder.closeFlush, hpos]
    · have hzero : (KLineBuilder.createNewBar I p t1.time).tick_count = 0 :=
        rfl
      rw [finishBar_tick_count, hcnt2, update_tick_count, hzero,
        List.length_cons]
      omega

/-- C6 witness: one tick fed to a fresh 1m builder, then a close at
`cNow`: exactly one store with one tick, finished, end time `cNow`. -/
theorem claim6_shutdown_flush_witness :
    ∃ bar, KLineBuilder.closeStores
        (KLineBuilder.feed builder1m [rbTick 9 30 0 3500]).1
        (fun _ => true) cNow = ([bar], true) ∧
      bar.tick_count = 1 ∧ bar.is_finished = true ∧
      bar.end_time = some cNow :=
  claim6_shutdown_flush KLinePeriod.min1 "rb2505" [rbTick 9 30 0 3500]
    builder1m cNow rfl (by decide) (by decide) (by decide) (by decide)

end KLine
